import Mathlib

/-!
Verification of the Piper TTS backend (Python sources under app/).

Shallow embedding conventions: Python dicts are modelled as insertion-ordered
association lists (`dictInsert` overwrites an existing binding in place, as
`d[k] = v` does; `dictFind` is `d.get(k)`); Python floats that carry exact
decimal values (speech speeds, timestamps) are modelled as rationals;
subprocess and file-system effects are modelled as explicit data
(command-argument lists, file lists with modification times, failure oracles).
Each definition is translated from the function of the same name in the
repository, as noted in its doc comment.
-/

namespace Piper

/-- ASCII whitespace, the characters Python's `str.split()` and `str.strip()`
split on (the unicode extras are not modelled). -/
def wsChar (c : Char) : Bool :=
  c = ' ' || c = '\t' || c = '\n' || c = '\r' || c = '\x0b' || c = '\x0c'

/-- Drop leading whitespace characters. -/
def dropLeadWS : List Char → List Char
  | [] => []
  | c :: rest => if wsChar c then dropLeadWS rest else c :: rest

/-- Python `str.strip()`: whitespace removed from both ends. -/
def pyStrip (s : String) : String :=
  String.mk (((dropLeadWS s.data).reverse |> dropLeadWS).reverse)

/-- Accumulator loop for `str.split()`: `acc` holds the current word
reversed. -/
def splitWSAux : List Char → List Char → List String
  | [], acc => if acc.isEmpty then [] else [String.mk acc.reverse]
  | c :: rest, acc =>
    if wsChar c then
      if acc.isEmpty then splitWSAux rest []
      else String.mk acc.reverse :: splitWSAux rest []
    else splitWSAux rest (c :: acc)

/-- Python `str.split()` with no argument: maximal non-whitespace runs. -/
def pySplitWS (s : String) : List String :=
  splitWSAux s.data []

/-- Python `' '.join(ts)`. -/
def joinSpace : List String → String
  | [] => ""
  | t :: rest => rest.foldl (fun acc u => acc ++ " " ++ u) t

/-- Python `str.lower()` over ASCII letters. -/
def pyLower (s : String) : String :=
  String.mk (s.data.map Char.toLower)

/-- Python `str.upper()` over ASCII letters. -/
def pyUpper (s : String) : String :=
  String.mk (s.data.map Char.toUpper)

/-- Whether the first list is an initial segment of the second. -/
def charsLead : List Char → List Char → Bool
  | [], _ => true
  | _ :: _, [] => false
  | c :: cs, d :: ds => c = d && charsLead cs ds

/-- Whether `pat` occurs contiguously anywhere in the second list. -/
def charsContain (pat : List Char) : List Char → Bool
  | [] => charsLead pat []
  | c :: rest => charsLead pat (c :: rest) || charsContain pat rest

/-- Lookup in an insertion-ordered association list, Python dict `d.get(k)`. -/
def dictFind {κ α : Type} [DecidableEq κ] (k : κ) : List (κ × α) → Option α
  | [] => none
  | (k', v) :: rest => if k' = k then some v else dictFind k rest

/-- Update in an insertion-ordered association list, Python dict assignment
`d[k] = v`: an existing binding is overwritten in place, a new key is appended
at the end. -/
def dictInsert {κ α : Type} [DecidableEq κ] (k : κ) (v : α) : List (κ × α) → List (κ × α)
  | [] => [(k, v)]
  | (k', v') :: rest => if k' = k then (k, v) :: rest else (k', v') :: dictInsert k v rest

/- ============================================================
   app/config.py — enumerations and data model
   ============================================================ -/

/-- Voice gender enumeration (config.py `Gender`). -/
inductive Gender
  | male
  | female
  | neutral
deriving DecidableEq, Repr

/-- Voice quality levels, ordered from best to lowest (config.py `Quality`). -/
inductive Quality
  | high
  | medium
  | low
  | x_low
deriving DecidableEq, Repr

/-- The `.value` string of each `Quality` member. -/
def Quality.value : Quality → String
  | .high => "high"
  | .medium => "medium"
  | .low => "low"
  | .x_low => "x_low"

/-- Quality priority for auto-selection, best first (config.py `QUALITY_PRIORITY`). -/
def QUALITY_PRIORITY : List Quality := [.high, .medium, .low, .x_low]

/-- Python `Quality(s)`: succeeds exactly on the four value literals,
raises `ValueError` (here: `none`) otherwise. -/
def parseQuality (s : String) : Option Quality :=
  if s = "high" then some .high
  else if s = "medium" then some .medium
  else if s = "low" then some .low
  else if s = "x_low" then some .x_low
  else none

/-- Python `Gender(s)`: succeeds exactly on the three value literals. -/
def parseGender (s : String) : Option Gender :=
  if s = "male" then some .male
  else if s = "female" then some .female
  else if s = "neutral" then some .neutral
  else none

/-- config.py load loop: `gender_str = voice_data.get("gender", "neutral").lower()`
then `Gender(gender_str)` when the lowered string is a member value, else
`Gender.NEUTRAL`. -/
def genderFromData (s : Option String) : Gender :=
  match parseGender (pyLower (s.getD "neutral")) with
  | some g => g
  | none => .neutral

/-- Python `str.title()` restricted to ASCII letters: the first letter of each
alphabetic run is upper-cased, subsequent letters are lower-cased. -/
def titleCaseGo : Bool → List Char → List Char
  | _, [] => []
  | prevAlpha, c :: rest =>
    if c.isAlpha then
      (if prevAlpha then c.toLower else c.toUpper) :: titleCaseGo true rest
    else
      c :: titleCaseGo false rest

/-- Default display name: `voice_name.replace("_", " ").title()` (config.py);
the replacement is per character since the pattern is a single character. -/
def defaultDisplayName (voice_name : String) : String :=
  String.mk (titleCaseGo false
    (voice_name.data.map (fun c => if c = '_' then ' ' else c)))

/-- A specific voice variant, one quality level (config.py `VoiceVariant`). -/
structure VoiceVariant where
  quality : Quality
  model_file : String
  config_file : String
  sample_rate : Nat := 22050
  num_speakers : Nat := 1
  speaker_id_map : List (String × Nat) := []
deriving DecidableEq, Repr

/-- A voice identity with its quality variants (config.py `Voice`).
`variants` is the dict mapping `Quality` to `VoiceVariant`. -/
structure Voice where
  name : String
  display_name : String
  gender : Gender
  variants : List (Quality × VoiceVariant) := []
  description : String := ""
deriving DecidableEq, Repr

/-- `Voice.available_qualities`: qualities present on this voice, in priority order. -/
def Voice.available_qualities (v : Voice) : List Quality :=
  QUALITY_PRIORITY.filter (fun q => (dictFind q v.variants).isSome)

/-- `Voice.best_quality`: first available quality in priority order. -/
def Voice.best_quality (v : Voice) : Option Quality :=
  v.available_qualities.head?

/-- Helper for the fallback branch of `Voice.get_variant`:
`best = self.best_quality; return self.variants.get(best) if best else None`. -/
def Voice.best_variant (v : Voice) : Option VoiceVariant :=
  match v.best_quality with
  | some b => dictFind b v.variants
  | none => none

/-- `Voice.get_variant(quality)`: the requested quality when present, else the
best available variant.  A `some` argument models a truthy `quality` value
(every `Quality` member is truthy in Python). -/
def Voice.get_variant (v : Voice) (quality : Option Quality) : Option VoiceVariant :=
  match quality with
  | some q =>
    match dictFind q v.variants with
    | some var => some var
    | none => v.best_variant
  | none => v.best_variant

/-- A locale/accent grouping of voices (config.py `Locale`). -/
structure Locale where
  code : String
  name : String
  voices : List (String × Voice) := []
deriving DecidableEq, Repr

/-- `Locale.get_voices(gender)`: all voices, optionally filtered by gender. -/
def Locale.get_voices (loc : Locale) (gender : Option Gender) : List Voice :=
  match gender with
  | some g => (loc.voices.map (·.2)).filter (fun v => v.gender = g)
  | none => loc.voices.map (·.2)

/-- `Locale.get_voice(name)`. -/
def Locale.get_voice (loc : Locale) (name : String) : Option Voice :=
  dictFind name loc.voices

/-- `Locale.get_default_voice(gender)`: first voice of the (filtered) list. -/
def Locale.get_default_voice (loc : Locale) (gender : Option Gender) : Option Voice :=
  (loc.get_voices gender).head?

/-- A language with its locales (config.py `Language`). -/
structure Language where
  code : String
  name : String
  native_name : String
  locales : List (String × Locale) := []
  default_locale : Option String := none
deriving DecidableEq, Repr

/-- `Language.get_locale(code)`. -/
def Language.get_locale (l : Language) (code : String) : Option Locale :=
  dictFind code l.locales

/-- `Language.get_default_locale()`: the stored default when truthy and
present, else the first locale, else `None`.  An empty-string
`default_locale` is falsy in Python, hence the explicit emptiness test. -/
def Language.get_default_locale (l : Language) : Option Locale :=
  match l.default_locale with
  | some dl =>
    if dl ≠ "" then
      match dictFind dl l.locales with
      | some loc => some loc
      | none => (l.locales.head?).map (·.2)
    else (l.locales.head?).map (·.2)
  | none => (l.locales.head?).map (·.2)

/-- Language metadata with native names (config.py `LANGUAGE_METADATA`):
code mapped to (display name, native name). -/
def LANGUAGE_METADATA : List (String × String × String) :=
  [("ar", ("Arabic", "العربية")),
   ("bg", ("Bulgarian", "Български")),
   ("ca", ("Catalan", "Català")),
   ("cs", ("Czech", "Čeština")),
   ("cy", ("Welsh", "Cymraeg")),
   ("da", ("Danish", "Dansk")),
   ("de", ("German", "Deutsch")),
   ("el", ("Greek", "Ελληνικά")),
   ("en", ("English", "English")),
   ("es", ("Spanish", "Español")),
   ("fa", ("Persian", "فارسی")),
   ("fi", ("Finnish", "Suomi")),
   ("fr", ("French", "Français")),
   ("he", ("Hebrew", "עברית")),
   ("hi", ("Hindi", "हिन्दी")),
   ("hu", ("Hungarian", "Magyar")),
   ("id", ("Indonesian", "Bahasa Indonesia")),
   ("is", ("Icelandic", "Íslenska")),
   ("it", ("Italian", "Italiano")),
   ("ka", ("Georgian", "ქართული")),
   ("kk", ("Kazakh", "Қазақша")),
   ("lb", ("Luxembourgish", "Lëtzebuergesch")),
   ("lv", ("Latvian", "Latviešu")),
   ("ml", ("Malayalam", "മലയാളം")),
   ("ne", ("Nepali", "नेपाली")),
   ("nl", ("Dutch", "Nederlands")),
   ("no", ("Norwegian", "Norsk")),
   ("pl", ("Polish", "Polski")),
   ("pt", ("Portuguese", "Português")),
   ("ro", ("Romanian", "Română")),
   ("ru", ("Russian", "Русский")),
   ("sk", ("Slovak", "Slovenčina")),
   ("sl", ("Slovenian", "Slovenščina")),
   ("sr", ("Serbian", "Српски")),
   ("sv", ("Swedish", "Svenska")),
   ("sw", ("Swahili", "Kiswahili")),
   ("te", ("Telugu", "తెలుగు")),
   ("tr", ("Turkish", "Türkçe")),
   ("uk", ("Ukrainian", "Українська")),
   ("vi", ("Vietnamese", "Tiếng Việt")),
   ("zh", ("Chinese", "中文"))]

/-- Locale/region metadata (config.py `LOCALE_METADATA`): code mapped to name. -/
def LOCALE_METADATA : List (String × String) :=
  [("AR", "Argentina"), ("BE", "Belgium"), ("BG", "Bulgaria"), ("BR", "Brazil"),
   ("CD", "Congo"), ("CN", "China"), ("CZ", "Czech Republic"), ("DE", "Germany"),
   ("DK", "Denmark"), ("ES", "Spain"), ("FI", "Finland"), ("FR", "France"),
   ("GB", "United Kingdom"), ("GE", "Georgia"), ("GR", "Greece"), ("HU", "Hungary"),
   ("ID", "Indonesia"), ("IL", "Israel"), ("IN", "India"), ("IR", "Iran"),
   ("IS", "Iceland"), ("IT", "Italy"), ("JO", "Jordan"), ("KE", "Kenya"),
   ("KZ", "Kazakhstan"), ("LU", "Luxembourg"), ("LV", "Latvia"), ("MX", "Mexico"),
   ("NL", "Netherlands"), ("NO", "Norway"), ("NP", "Nepal"), ("PL", "Poland"),
   ("PT", "Portugal"), ("RO", "Romania"), ("RS", "Serbia"), ("RU", "Russia"),
   ("SE", "Sweden"), ("SI", "Slovenia"), ("SK", "Slovakia"), ("TR", "Turkey"),
   ("UA", "Ukraine"), ("US", "United States"), ("VN", "Vietnam")]

/-- `lang_meta.get("name", lang_code.upper())`. -/
def languageDisplayName (lang_code : String) : String :=
  ((dictFind lang_code LANGUAGE_METADATA).map (·.1)).getD (pyUpper lang_code)

/-- `lang_meta.get("native", lang_code.upper())`. -/
def languageNativeName (lang_code : String) : String :=
  ((dictFind lang_code LANGUAGE_METADATA).map (·.2)).getD (pyUpper lang_code)

/-- `locale_meta.get("name", locale_code)`. -/
def localeDisplayName (locale_code : String) : String :=
  (dictFind locale_code LOCALE_METADATA).getD locale_code

/- ============================================================
   app/config.py — voice index file AST and VoiceCatalog.load_from_index
   ============================================================ -/

/-- One quality entry of the voice index JSON: field absent means the key is
missing and the coded `.get(key, default)` fallback applies. -/
structure VariantData where
  model : Option String := none
  config : Option String := none
  sample_rate : Option Nat := none
  num_speakers : Option Nat := none
  speaker_id_map : Option (List (String × Nat)) := none
deriving DecidableEq, Repr

/-- One voice entry of the voice index JSON. -/
structure VoiceData where
  gender : Option String := none
  display_name : Option String := none
  description : Option String := none
  qualities : List (String × VariantData) := []
deriving DecidableEq, Repr

/-- One locale entry of the voice index JSON. -/
structure LocaleData where
  voices : List (String × VoiceData) := []
deriving DecidableEq, Repr

/-- One language entry of the voice index JSON. -/
structure LangData where
  locales : List (String × LocaleData) := []
deriving DecidableEq, Repr

/-- The parsed voice index file: `data.get("languages", {})`. -/
structure IndexData where
  languages : List (String × LangData) := []
deriving DecidableEq, Repr

/-- Reverse-index record: `(lang_code, locale_code, voice_name, quality)`. -/
abbrev KeyRec := String × String × String × Quality

/-- The `_voice_key_map` reverse index. -/
abbrev KeyMap := List (String × KeyRec)

/-- `VoiceVariant(...)` construction in the load loop, with the coded defaults. -/
def mkVariant (q : Quality) (vd : VariantData) : VoiceVariant :=
  { quality := q
  , model_file := vd.model.getD ""
  , config_file := vd.config.getD ""
  , sample_rate := vd.sample_rate.getD 22050
  , num_speakers := vd.num_speakers.getD 1
  , speaker_id_map := vd.speaker_id_map.getD [] }

/-- The canonical reverse-lookup key
`f"{lang_code}_{locale_code}-{voice_name}-{quality_str}"`. -/
def voiceKey (lang_code locale_code voice_name quality_str : String) : String :=
  lang_code ++ "_" ++ locale_code ++ "-" ++ voice_name ++ "-" ++ quality_str

/-- Innermost load loop over `qualities_data.items()`: an unparseable quality
string is skipped (logged, non-fatal); a valid one constructs a variant,
stores it on the voice and registers the reverse-lookup key. -/
def buildQualities (lang_code locale_code voice_name : String) :
    List (String × VariantData) → List (Quality × VoiceVariant) → KeyMap →
    List (Quality × VoiceVariant) × KeyMap
  | [], variants, km => (variants, km)
  | (quality_str, vd) :: rest, variants, km =>
    match parseQuality quality_str with
    | none => buildQualities lang_code locale_code voice_name rest variants km
    | some q =>
      buildQualities lang_code locale_code voice_name rest
        (dictInsert q (mkVariant q vd) variants)
        (dictInsert (voiceKey lang_code locale_code voice_name quality_str)
          (lang_code, locale_code, voice_name, q) km)

/-- Load loop over `voices_data.items()`: a voice is attached to its locale
only when it ended up with at least one quality variant. -/
def buildVoices (lang_code locale_code : String) :
    List (String × VoiceData) → List (String × Voice) → KeyMap →
    List (String × Voice) × KeyMap
  | [], voices, km => (voices, km)
  | (voice_name, vd) :: rest, voices, km =>
    let (variants, km') := buildQualities lang_code locale_code voice_name vd.qualities [] km
    let voice : Voice :=
      { name := voice_name
      , display_name := vd.display_name.getD (defaultDisplayName voice_name)
      , gender := genderFromData vd.gender
      , variants := variants
      , description := vd.description.getD "" }
    let voices' := if variants.isEmpty then voices else dictInsert voice_name voice voices
    buildVoices lang_code locale_code rest voices' km'

/-- Load loop over `locales_data.items()`: records the first locale code
encountered (the future default locale) and attaches a locale only when it
has at least one voice. -/
def buildLocales (lang_code : String) :
    List (String × LocaleData) → Option String → List (String × Locale) → KeyMap →
    Option String × List (String × Locale) × KeyMap
  | [], first_locale, locales, km => (first_locale, locales, km)
  | (locale_code, ld) :: rest, first_locale, locales, km =>
    let first_locale' := if first_locale.isNone then some locale_code else first_locale
    let (voices, km') := buildVoices lang_code locale_code ld.voices [] km
    let locales' :=
      if voices.isEmpty then locales
      else dictInsert locale_code
        { code := locale_code, name := localeDisplayName locale_code, voices := voices } locales
    buildLocales lang_code rest first_locale' locales' km'

/-- Topmost load loop over `languages_data.items()`: a language is attached
only when it has at least one locale, with its default locale set to the
first locale code encountered. -/
def buildLanguages :
    List (String × LangData) → List (String × Language) → KeyMap →
    List (String × Language) × KeyMap
  | [], langs, km => (langs, km)
  | (lang_code, ld) :: rest, langs, km =>
    let (first_locale, locales, km') := buildLocales lang_code ld.locales none [] km
    let langs' :=
      if locales.isEmpty then langs
      else dictInsert lang_code
        { code := lang_code
        , name := languageDisplayName lang_code
        , native_name := languageNativeName lang_code
        , locales := locales
        , default_locale := first_locale } langs
    buildLanguages rest langs' km'

/-- Central catalog (config.py `VoiceCatalog`): languages plus the
`_voice_key_map` reverse index. -/
structure VoiceCatalog where
  languages : List (String × Language) := []
  voice_key_map : KeyMap := []
deriving DecidableEq, Repr

/-- `VoiceCatalog.load_from_index`, given an already-parsed index file (the
catalog and reverse index are cleared first, then rebuilt in one pass). -/
def load_from_index (data : IndexData) : VoiceCatalog :=
  let (langs, km) := buildLanguages data.languages [] []
  { languages := langs, voice_key_map := km }

/-- `VoiceCatalog.get_language(code)`. -/
def VoiceCatalog.get_language (c : VoiceCatalog) (code : String) : Option Language :=
  dictFind code c.languages

/-- Python `Gender(gender.lower())` with `except ValueError: pass`. -/
def parseGenderLower (s : String) : Option Gender :=
  parseGender (pyLower s)

/-- Python `Quality(quality.lower())` with `except ValueError: pass`. -/
def parseQualityLower (s : String) : Option Quality :=
  parseQuality (pyLower s)

/-- `VoiceCatalog.resolve_voice(language, locale, gender, voice, quality)`:
steps through language, locale (or default), gender filter, voice (or
default), quality variant (or best), returning `none` at any failed step.
A `some ""` argument models a present-but-falsy (empty) string, which takes
the same branch as an absent argument in the Python `if locale:` /
`if gender:` / `if voice:` / `if quality:` tests. -/
def VoiceCatalog.resolve_voice (c : VoiceCatalog) (language : String)
    (locale : Option String) (gender : Option String) (voice : Option String)
    (quality : Option String) : Option (Language × Locale × Voice × VoiceVariant) :=
  match c.get_language language with
  | none => none
  | some lang =>
    let loc? :=
      match locale with
      | some lc => if lc ≠ "" then lang.get_locale lc else lang.get_default_locale
      | none => lang.get_default_locale
    match loc? with
    | none => none
    | some loc =>
      let gender_enum :=
        match gender with
        | some g => if g ≠ "" then parseGenderLower g else none
        | none => none
      let v? :=
        match voice with
        | some vn => if vn ≠ "" then loc.get_voice vn else loc.get_default_voice gender_enum
        | none => loc.get_default_voice gender_enum
      match v? with
      | none => none
      | some v =>
        let quality_enum :=
          match quality with
          | some qs => if qs ≠ "" then parseQualityLower qs else none
          | none => none
        match v.get_variant quality_enum with
        | none => none
        | some variant => some (lang, loc, v, variant)

/-- `VoiceCatalog.find_by_voice_key(voice_key)`: reverse lookup, then
`resolve_voice(lang_code, locale_code, None, voice_name, quality.value)`. -/
def VoiceCatalog.find_by_voice_key (c : VoiceCatalog) (key : String) :
    Option (Language × Locale × Voice × VoiceVariant) :=
  match dictFind key c.voice_key_map with
  | some (lang_code, locale_code, voice_name, q) =>
    c.resolve_voice lang_code (some locale_code) none (some voice_name) (some q.value)
  | none => none

/-- `Settings.is_allowed_ip(client_ip)` (config.py): open mode when no backend
address is configured; loopback literals always allowed; otherwise exact
equality with the configured backend address. -/
def is_allowed_ip (backend_ip : String) (client_ip : String) : Bool :=
  if backend_ip = "" then true
  else if client_ip = "127.0.0.1" ∨ client_ip = "::1" ∨ client_ip = "localhost" then true
  else client_ip = backend_ip

/- ============================================================
   app/tts_service.py — PiperTTSService.generate_speech and _run_piper
   ============================================================ -/

/-- One entry of `PiperTTSService.model_configs`. -/
structure ModelConfig where
  model_path : String
  config_path : String
deriving DecidableEq, Repr

/-- The service state that `generate_speech` consults: `loaded_models`
(language to model name) and `model_configs` (language to file paths). -/
structure ServiceState where
  loaded_models : List (String × String)
  model_configs : List (String × ModelConfig)
deriving DecidableEq, Repr

/-- The `ValueError`s raised by `generate_speech`, plus the `KeyError` that
`self.model_configs[language]` would raise were the two dicts out of step
(they are populated together in `_prepare_model`). -/
inductive TTSError
  | languageNotAvailable (language : String) (available : List String)
  | textEmpty
  | missingConfig
deriving DecidableEq, Repr

/-- The Piper engine invocation that `_run_piper` performs: the command is
`piper --model <model> --config <config> --output_file <wav>`, extended with
`--length-scale <1.0/speed>` exactly when `speed != 1.0`; the text is piped
on stdin.  The rational `length_scale` records the exact value `1.0 / speed`
from which the flag's argument is rendered. -/
structure PiperInvocation where
  text : String
  model_path : String
  config_path : String
  length_scale : Option ℚ
deriving DecidableEq, Repr

/-- `_run_piper(text, model_path, config_path, speed)` reduced to the
invocation it launches (tts_service.py lines 532-542). -/
def run_piper (text model_path config_path : String) (speed : ℚ) : PiperInvocation :=
  { text := text
  , model_path := model_path
  , config_path := config_path
  , length_scale := if speed ≠ 1 then some (1 / speed) else none }

/-- `PiperTTSService.generate_speech(text, language, voice, speed)` up to the
engine invocation: validates the language against `loaded_models`, then the
text against emptiness, then hands text and speed unchanged to `_run_piper`. -/
def generate_speech (svc : ServiceState) (text language : String) (speed : ℚ) :
    Except TTSError PiperInvocation :=
  if (dictFind language svc.loaded_models).isNone then
    .error (.languageNotAvailable language (svc.loaded_models.map (·.1)))
  else if pyStrip text = "" then
    .error .textEmpty
  else
    match dictFind language svc.model_configs with
    | none => .error .missingConfig
    | some mc => .ok (run_piper text mc.model_path mc.config_path speed)

/- ============================================================
   app/tts_service.py — _convert_to_mp3_ffmpeg
   ============================================================ -/

/-- The exact ffmpeg argument vector built by
`PiperTTSService._convert_to_mp3_ffmpeg` (tts_service.py lines 658-671). -/
def convert_to_mp3_cmd (wav_file_path mp3_file_path : String) : List String :=
  ["ffmpeg", "-y",
   "-i", wav_file_path,
   "-af", "apad=pad_dur=0.5",
   "-ar", "24000",
   "-ac", "1",
   "-c:a", "libmp3lame",
   "-b:a", "48k",
   "-write_xing", "0",
   "-id3v2_version", "0",
   "-map_metadata", "-1",
   "-fflags", "+bitexact",
   mp3_file_path]

/-- The transcoder compatibility profile as the spec words it, clause by
clause: overwrite output; the WAV input; an audio filter appending 0.5 s of
trailing silence; output sample rate 24000 Hz; 1 audio channel (mono); the
MP3 encoder; bitrate 48k; Xing/Info header disabled; ID3v2 tags disabled;
all metadata stripped; the bit-exact output flag; the output MP3 path. -/
def ffmpeg_compatibility_profile (wav mp3 : String) : List String :=
  ["ffmpeg", "-y"] ++
  ["-i", wav] ++
  ["-af", "apad=pad_dur=0.5"] ++
  ["-ar", "24000"] ++
  ["-ac", "1"] ++
  ["-c:a", "libmp3lame"] ++
  ["-b:a", "48k"] ++
  ["-write_xing", "0"] ++
  ["-id3v2_version", "0"] ++
  ["-map_metadata", "-1"] ++
  ["-fflags", "+bitexact"] ++
  [mp3]

/- ============================================================
   app/main.py — TTSRequest validation and the generation endpoint
   ============================================================ -/

/-- The 15 language codes of `LANGUAGE_PATTERN` (main.py line 297). -/
def SUPPORTED_LANGUAGES : List String :=
  ["en", "de", "fr", "es", "it", "fa", "zh", "ar", "ru", "pt", "ja", "sw", "tr", "ko", "vi"]

/-- Whether a language string matches `LANGUAGE_PATTERN`
(an anchored alternation over the 15 codes). -/
def languagePatternOK (s : String) : Bool :=
  SUPPORTED_LANGUAGES.any (fun c => c = s)

/-- The text-length bound hard-coded in `TTSRequest`
(`Field(..., min_length=1, max_length=5000)`), equal to the default of the
`MAX_TEXT_LENGTH` environment setting. -/
def MAX_TEXT_LENGTH : Nat := 5000

/-- The `clean_text` validator of `TTSRequest`: `' '.join(v.split())`
(whitespace runs collapsed to single spaces, ends stripped). -/
def clean_text (s : String) : String :=
  joinSpace (pySplitWS s)

/-- Field-validation failures that pydantic can record for a `TTSRequest`. -/
inductive FieldError
  | text_too_short
  | text_too_long
  | text_empty_after_clean
  | language_pattern
  | speed_range
deriving DecidableEq, Repr

/-- A raw `POST /piper/tts/generate` body (voice is unconstrained and unused). -/
structure TTSRawRequest where
  text : String
  language : String
  speed : ℚ
deriving DecidableEq, Repr

/-- Pydantic validation of the `text` field: `min_length=1`, then
`max_length=5000`, then the `clean_text` validator's emptiness check. -/
def validate_text (t : String) : Option FieldError :=
  if t.length < 1 then some .text_too_short
  else if t.length > MAX_TEXT_LENGTH then some .text_too_long
  else if clean_text t = "" then some .text_empty_after_clean
  else none

/-- Pydantic validation of the `language` field against `LANGUAGE_PATTERN`. -/
def validate_language (l : String) : Option FieldError :=
  if languagePatternOK l then none else some .language_pattern

/-- Pydantic validation of the `speed` field: `ge=0.5, le=2.0`. -/
def validate_speed (s : ℚ) : Option FieldError :=
  if s < 1/2 ∨ 2 < s then some .speed_range else none

/-- All field errors of a request, in field-declaration order. -/
def field_errors (r : TTSRawRequest) : List FieldError :=
  (validate_text r.text).toList ++ (validate_language r.language).toList ++
    (validate_speed r.speed).toList

/-- The error bodies produced by `validation_exception_handler`
(main.py lines 153-258), all with HTTP status 400. -/
inductive ValidationResponse
  | unsupported_language (requested : String) (available : List String)
  | text_too_short (min_length max_length : Nat)
  | text_too_long (max_length provided_length : Nat)
  | invalid_speed (provided min_speed max_speed : ℚ)
  | validation_error
deriving DecidableEq, Repr

/-- `validation_exception_handler`: scans the error list for a language
error first, then a too-short/too-long text error, then a speed error,
falling back to the generic body (the `clean_text` value error matches none
of the specific checks). -/
def validation_exception_handler (r : TTSRawRequest) (errs : List FieldError) :
    ValidationResponse :=
  if errs.contains .language_pattern then
    .unsupported_language r.language SUPPORTED_LANGUAGES
  else if errs.contains .text_too_short then
    .text_too_short 1 MAX_TEXT_LENGTH
  else if errs.contains .text_too_long then
    .text_too_long MAX_TEXT_LENGTH r.text.length
  else if errs.contains .speed_range then
    .invalid_speed r.speed (1/2) 2
  else .validation_error

/-- Outcome of `POST /piper/tts/generate` up to the synthesis call: either
pydantic validation rejects the body before the route handler runs, or the
handler invokes `tts_service.generate_speech` with the cleaned text. -/
inductive EndpointResult
  | validation_rejected (resp : ValidationResponse)
  | synthesis_attempted (text language : String) (speed : ℚ)
deriving DecidableEq, Repr

/-- The generation endpoint (route handler `generate_speech` in main.py,
line 562) composed with its request model: validation errors short-circuit
into `validation_exception_handler`; otherwise the handler body runs and
awaits `tts_service.generate_speech(text, language, voice, speed)`. -/
def generate_endpoint (r : TTSRawRequest) : EndpointResult :=
  match field_errors r with
  | [] => .synthesis_attempted (clean_text r.text) r.language r.speed
  | errs => .validation_rejected (validation_exception_handler r errs)

/- ============================================================
   app/main.py — verify_backend_ip middleware;
   app/metrics.py — track_blocked_request, get_status_class
   ============================================================ -/

/-- Outcome of the `verify_backend_ip` middleware for one request: forward
to `call_next` (the route handler), or short-circuit with the 403
`Forbidden` response. -/
inductive FilterDecision
  | forward
  | forbidden
deriving DecidableEq, Repr

/-- `verify_backend_ip` (main.py lines 389-411): health-check and metrics
paths bypass the filter only for loopback client addresses; every other
request is forwarded exactly when the client address equals the configured
`BACKEND_IP`. -/
def verify_backend_ip (backend_ip : String) (path client_ip : String) : FilterDecision :=
  if (path = "/piper/health" ∨ path = "/piper/metrics") ∧
     (client_ip = "127.0.0.1" ∨ client_ip = "::1") then
    .forward
  else if client_ip ≠ backend_ip then
    .forbidden
  else
    .forward

/-- `track_blocked_request` (metrics.py lines 244-248): increments the
`tts_blocked_requests_total` counter by the default value 1. -/
def track_blocked_request (blocked_requests_total : Nat) : Nat :=
  blocked_requests_total + 1

/-- `get_status_class` (metrics.py lines 270-279).  The argument is the
integer HTTP status code. -/
def get_status_class (status_code : Int) : String :=
  if 200 ≤ status_code ∧ status_code < 300 then "2xx"
  else if 300 ≤ status_code ∧ status_code < 400 then "3xx"
  else if 400 ≤ status_code ∧ status_code < 500 then "4xx"
  else "5xx"

/- ============================================================
   app/log_config.py — cleanup_old_logs
   ============================================================ -/

/-- A file in the log directory: basename and last-modified time in whole
seconds (`os.path.getmtime`; sub-second precision is not modelled). -/
structure LogFile where
  name : String
  mtime : Int
deriving DecidableEq, Repr

/-- Whether a basename matches the glob pattern `*.log*`: it contains
`".log"`, and (glob never matching hidden files with a non-dot pattern) it
does not start with a dot. -/
def matches_log_glob (name : String) : Bool :=
  match name.data with
  | '.' :: _ => false
  | cs => charsContain ".log".data cs

/-- The `try` body of `cleanup_old_logs`: walk the glob matches in
directory order, deleting each file strictly older than the cutoff.
`io_fails` says whether touching a given file raises an I/O error; the first
failure aborts the loop (the Boolean result records that an exception was
raised, to be caught by the caller), leaving later files untouched and the
count at its current value. -/
def cleanup_scan (cutoff : Int) (io_fails : String → Bool) :
    List LogFile → Nat × List LogFile × Bool
  | [] => (0, [], false)
  | f :: rest =>
    if matches_log_glob f.name && decide (f.mtime < cutoff) then
      if io_fails f.name then (0, f :: rest, true)
      else
        match cleanup_scan cutoff io_fails rest with
        | (deleted, fs, e) => (deleted + 1, fs, e)
    else
      match cleanup_scan cutoff io_fails rest with
      | (deleted, fs, e) => (deleted, f :: fs, e)

/-- `cleanup_old_logs(log_dir, retention_days)` (log_config.py lines
205-233) over the modelled directory listing: computes the cutoff
`time.time() - days * 86400`, runs the scan, catches any exception (logging
it) and returns the number of files deleted together with the resulting
directory contents. -/
def cleanup_old_logs (now : Int) (retention_days : Nat) (io_fails : String → Bool)
    (files : List LogFile) : Nat × List LogFile :=
  match cleanup_scan (now - retention_days * 86400) io_fails files with
  | (deleted, fs, _) => (deleted, fs)

/- ============================================================
   Invariant predicates over the catalog and the voice index
   ============================================================ -/

/-- A voice value is consistent with the name it is stored under: carries
that name, has at least one variant, and every variant is stored under its
own quality. -/
def VoiceConsistent (n : String) (v : Voice) : Prop :=
  v.name = n ∧ v.variants ≠ [] ∧
    ∀ q var, dictFind q v.variants = some var → var.quality = q

/-- A locale value is consistent with its key: carries that code, has at
least one voice, and every stored voice is consistent. -/
def LocaleConsistent (c : String) (loc : Locale) : Prop :=
  loc.code = c ∧ loc.voices ≠ [] ∧
    ∀ n v, dictFind n loc.voices = some v → VoiceConsistent n v

/-- A language value is consistent with its key: carries that code, has at
least one locale, and every stored locale is consistent. -/
def LanguageConsistent (c : String) (L : Language) : Prop :=
  L.code = c ∧ L.locales ≠ [] ∧
    ∀ cc loc, dictFind cc L.locales = some loc → LocaleConsistent cc loc

/-- A reverse-index record is resolvable against a language table: its
locale and voice coordinates are non-empty (hence truthy in Python) and the
full language/locale/voice/variant chain exists with matching codes. -/
def RecResolvable (langs : List (String × Language)) (rec : KeyRec) : Prop :=
  rec.2.1 ≠ "" ∧ rec.2.2.1 ≠ "" ∧
  ∃ L loc v var,
    dictFind rec.1 langs = some L ∧ L.code = rec.1 ∧
    dictFind rec.2.1 L.locales = some loc ∧ loc.code = rec.2.1 ∧
    dictFind rec.2.2.1 loc.voices = some v ∧ v.name = rec.2.2.1 ∧
    dictFind rec.2.2.2 v.variants = some var ∧ var.quality = rec.2.2.2

/-- Well-formedness that every `json.load`-produced index enjoys: dict
iteration yields each key once at every level. -/
def IndexWF (d : IndexData) : Prop :=
  (d.languages.map (·.1)).Nodup ∧
  ∀ p ∈ d.languages, (p.2.locales.map (·.1)).Nodup ∧
    ∀ q ∈ p.2.locales, (q.2.voices.map (·.1)).Nodup

instance (d : IndexData) : Decidable (IndexWF d) := by
  unfold IndexWF
  infer_instance

/-- Every locale code and voice name in the index is a non-empty (truthy)
string. -/
def IndexCodesNonempty (d : IndexData) : Prop :=
  ∀ p ∈ d.languages, ∀ q ∈ p.2.locales,
    q.1 ≠ "" ∧ ∀ r ∈ q.2.voices, r.1 ≠ ""

instance (d : IndexData) : Decidable (IndexCodesNonempty d) := by
  unfold IndexCodesNonempty
  infer_instance

/-- The structural invariants claimed for a loaded catalog: no empty voice,
locale or language is retained, and each retained language's default locale
is the first locale code of its index entry. -/
def CatalogInvariants (d : IndexData) : Prop :=
  ∀ lc L, dictFind lc (load_from_index d).languages = some L →
    (L.locales ≠ [] ∧
     ∀ c loc, dictFind c L.locales = some loc →
       loc.voices ≠ [] ∧ ∀ n v, dictFind n loc.voices = some v → v.variants ≠ []) ∧
    ∀ ld, dictFind lc d.languages = some ld →
      L.default_locale = (ld.locales.head?).map (·.1)

/-- Soundness of the reverse index: every stored key resolves through
`find_by_voice_key` to a tuple whose codes and quality match the record. -/
def ReverseIndexSound (d : IndexData) : Prop :=
  ∀ key rec, dictFind key (load_from_index d).voice_key_map = some rec →
    ∃ L loc v var,
      (load_from_index d).find_by_voice_key key = some (L, loc, v, var) ∧
      L.code = rec.1 ∧ loc.code = rec.2.1 ∧ v.name = rec.2.2.1 ∧
      var.quality = rec.2.2.2

/- ============================================================
   Concrete fixtures for counterexamples and witnesses
   ============================================================ -/

/-- A service state with one loaded language, as after a startup that
prepared only the English model. -/
def demoService : ServiceState :=
  { loaded_models := [("en", "en_US-lessac-high")]
  , model_configs :=
      [("en", { model_path := "/app/models/en/en_US-lessac-high.onnx"
              , config_path := "/app/models/en/en_US-lessac-high.onnx.json" })] }

/-- A small well-formed voice index: one language, one locale, one voice
with one valid quality, one invalid quality string, and a second valid one. -/
def demoIndex : IndexData :=
  { languages :=
    [("en",
      { locales :=
        [("US",
          { voices :=
            [("lessac",
              { gender := some "female"
              , display_name := some "Lessac"
              , qualities :=
                [("high", { model := some "en_US-lessac-high.onnx"
                          , config := some "en_US-lessac-high.onnx.json" }),
                 ("ultra", { model := some "bogus.onnx" }),
                 ("medium", { model := some "en_US-lessac-medium.onnx" })] })] })] })] }

/-- A voice index whose second locale has the empty string as its code: the
load succeeds and registers the key `en_-a-high`, but resolution falls back
to the default locale `US`, which has no voice `a`. -/
def badIndex : IndexData :=
  { languages :=
    [("en",
      { locales :=
        [("US", { voices := [("b", { qualities := [("high", { model := some "b.onnx" })] })] }),
         ("", { voices := [("a", { qualities := [("high", { model := some "a.onnx" })] })] })] })] }

/-- A directory listing for the log-cleanup witness: one stale rotated log,
one fresh log, one non-matching file and one hidden file. -/
def demoLogDir : List LogFile :=
  [{ name := "piper.log", mtime := 100 },
   { name := "piper.log.1", mtime := 1999999 },
   { name := "notes.txt", mtime := 5 },
   { name := ".log", mtime := 5 }]

/-- A text of exactly `MAX_TEXT_LENGTH` characters. -/
def maxLenText : String := String.mk (List.replicate MAX_TEXT_LENGTH 'a')

/-- A text one character longer than `MAX_TEXT_LENGTH`. -/
def overLenText : String := String.mk (List.replicate (MAX_TEXT_LENGTH + 1) 'a')

/- ============================================================
   Helper lemmas
   ============================================================ -/

theorem dictFind_dictInsert {κ α : Type} [DecidableEq κ] (k k' : κ) (v : α) (l : List (κ × α)) :
    dictFind k' (dictInsert k v l) = if k = k' then some v else dictFind k' l := by
  induction l with
  | nil => by_cases h : k = k' <;> simp [dictFind, dictInsert, h]
  | cons p rest ih =>
    obtain ⟨pk, pv⟩ := p
    by_cases h1 : pk = k <;> by_cases h2 : k = k' <;>
      simp_all [dictFind, dictInsert]

/-- Every value reachable in a dict after an insert is either the inserted
value at the inserted key or was already reachable. -/
theorem dictFind_dictInsert_cases {κ α : Type} [DecidableEq κ] {k k' : κ} {v w : α}
    {l : List (κ × α)} (h : dictFind k' (dictInsert k v l) = some w) :
    (k = k' ∧ w = v) ∨ dictFind k' l = some w := by
  rw [dictFind_dictInsert] at h
  by_cases hk : k = k'
  · rw [if_pos hk] at h
    exact Or.inl ⟨hk, (Option.some_injective _ h).symm⟩
  · rw [if_neg hk] at h
    exact Or.inr h

theorem dictInsert_ne_nil {κ α : Type} [DecidableEq κ] (k : κ) (v : α) (l : List (κ × α)) :
    dictInsert k v l ≠ [] := by
  cases l with
  | nil => simp [dictInsert]
  | cons p rest =>
    obtain ⟨pk, pv⟩ := p
    by_cases h : pk = k <;> simp [dictInsert, h]

theorem dictFind_some_ne_nil {κ α : Type} [DecidableEq κ] {k : κ} {v : α}
    {l : List (κ × α)} (h : dictFind k l = some v) : l ≠ [] := by
  cases l with
  | nil => simp [dictFind] at h
  | cons p rest => simp

theorem dictFind_some_mem_keys {κ α : Type} [DecidableEq κ] {k : κ} {v : α}
    {l : List (κ × α)} (h : dictFind k l = some v) : k ∈ l.map (·.1) := by
  induction l with
  | nil => simp [dictFind] at h
  | cons p rest ih =>
    obtain ⟨pk, pv⟩ := p
    by_cases hk : pk = k
    · simp [hk]
    · simp only [dictFind, if_neg hk] at h
      simp [ih h]

theorem splitWSAux_replicate {c : Char} (hc : wsChar c = false) (n : Nat) (acc : List Char) :
    splitWSAux (List.replicate n c) acc =
      if (acc.reverse ++ List.replicate n c).isEmpty then []
      else [String.mk (acc.reverse ++ List.replicate n c)] := by
  induction n generalizing acc with
  | zero => simp [splitWSAux, List.isEmpty_iff]
  | succ n ih =>
    rw [List.replicate_succ]
    simp only [splitWSAux, hc, Bool.false_eq_true, if_false]
    rw [ih (c :: acc)]
    simp [List.replicate_succ]

theorem mkStr_length (l : List Char) : (String.mk l).length = l.length := rfl

theorem clean_text_replicate {c : Char} (hc : wsChar c = false) (n : Nat) :
    clean_text (String.mk (List.replicate n c)) =
      if n = 0 then "" else String.mk (List.replicate n c) := by
  unfold clean_text pySplitWS
  show joinSpace (splitWSAux (List.replicate n c) []) = _
  rw [splitWSAux_replicate hc n []]
  cases n with
  | zero => simp [joinSpace]
  | succ n => simp [joinSpace, List.isEmpty_iff]

theorem notin_map_ne {κ α : Type} {k : κ} {l : List (κ × α)} (h : k ∉ l.map (·.1))
    {p : κ × α} (hp : p ∈ l) : ¬(k = p.1) := by
  intro heq
  rw [heq] at h
  exact h (List.mem_map_of_mem _ hp)

theorem isEmpty_false_of_ne {α : Type} {l : List α} (h : l ≠ []) : l.isEmpty = false := by
  cases l with
  | nil => exact absurd rfl h
  | cons a t => rfl

theorem load_from_index_eq (d : IndexData) :
    load_from_index d =
      { languages := (buildLanguages d.languages [] []).1
      , voice_key_map := (buildLanguages d.languages [] []).2 } := by
  cases hb : buildLanguages d.languages [] [] with
  | mk langs km => simp [load_from_index, hb]

theorem quality_value_ne_empty (q : Quality) : Quality.value q ≠ "" := by
  cases q <;> decide

theorem parseQualityLower_value (q : Quality) :
    parseQualityLower (Quality.value q) = some q := by
  cases q <;> rfl

/-- Every variant stored by the quality loop sits under its own quality. -/
theorem buildQualities_varsOK (lc locc vn : String)
    (entries : List (String × VariantData))
    (variants : List (Quality × VoiceVariant)) (km : KeyMap)
    (h : ∀ q var, dictFind q variants = some var → var.quality = q) :
    ∀ q var,
      dictFind q (buildQualities lc locc vn entries variants km).1 = some var →
      var.quality = q := by
  induction entries generalizing variants km with
  | nil => exact h
  | cons e rest ih =>
    obtain ⟨qs, vd⟩ := e
    cases hq : parseQuality qs with
    | none =>
      simp only [buildQualities, hq]
      exact ih variants km h
    | some q =>
      simp only [buildQualities, hq]
      refine ih _ _ ?_
      intro q' var' hfind
      rcases dictFind_dictInsert_cases hfind with ⟨rfl, rfl⟩ | hold
      · rfl
      · exact h q' var' hold

/-- A quality slot filled with a correctly-tagged variant stays filled with a
correctly-tagged variant through the rest of the quality loop. -/
theorem buildQualities_preserve (lc locc vn : String)
    (entries : List (String × VariantData))
    (variants : List (Quality × VoiceVariant)) (km : KeyMap) (q : Quality)
    (h : ∃ var, dictFind q variants = some var ∧ var.quality = q) :
    ∃ var,
      dictFind q (buildQualities lc locc vn entries variants km).1 = some var ∧
      var.quality = q := by
  induction entries generalizing variants km with
  | nil => exact h
  | cons e rest ih =>
    obtain ⟨qs, vd⟩ := e
    cases hq : parseQuality qs with
    | none =>
      simp only [buildQualities, hq]
      exact ih variants km h
    | some q' =>
      simp only [buildQualities, hq]
      refine ih _ _ ?_
      by_cases hqq : q' = q
      · subst hqq
        exact ⟨mkVariant q' vd, by rw [dictFind_dictInsert, if_pos rfl], rfl⟩
      · obtain ⟨var, hv, hvq⟩ := h
        exact ⟨var, by rw [dictFind_dictInsert, if_neg hqq]; exact hv, hvq⟩

/-- Every record reachable in the reverse index after the quality loop is
either an old record or points at this voice with its quality present among
the produced variants. -/
theorem buildQualities_km (lc locc vn : String)
    (entries : List (String × VariantData))
    (variants : List (Quality × VoiceVariant)) (km : KeyMap) :
    ∀ key rec,
      dictFind key (buildQualities lc locc vn entries variants km).2 = some rec →
      dictFind key km = some rec ∨
      (rec.1 = lc ∧ rec.2.1 = locc ∧ rec.2.2.1 = vn ∧
       ∃ var,
         dictFind rec.2.2.2 (buildQualities lc locc vn entries variants km).1 =
           some var ∧
         var.quality = rec.2.2.2) := by
  induction entries generalizing variants km with
  | nil =>
    intro key rec h
    exact Or.inl h
  | cons e rest ih =>
    obtain ⟨qs, vd⟩ := e
    cases hq : parseQuality qs with
    | none =>
      simp only [buildQualities, hq]
      exact ih variants km
    | some q =>
      simp only [buildQualities, hq]
      intro key rec h
      rcases ih _ _ key rec h with hold | hnew
      · rcases dictFind_dictInsert_cases hold with ⟨_, rfl⟩ | hold2
        · refine Or.inr ⟨rfl, rfl, rfl, ?_⟩
          exact buildQualities_preserve lc locc vn rest _ _ q
            ⟨mkVariant q vd, by rw [dictFind_dictInsert, if_pos rfl], rfl⟩
        · exact Or.inl hold2
      · exact Or.inr hnew

/-- Every voice stored by the voice loop is consistent with its name. -/
theorem buildVoices_voicesOK (lc locc : String)
    (entries : List (String × VoiceData))
    (voices : List (String × Voice)) (km : KeyMap)
    (h : ∀ n v, dictFind n voices = some v → VoiceConsistent n v) :
    ∀ n v,
      dictFind n (buildVoices lc locc entries voices km).1 = some v →
      VoiceConsistent n v := by
  induction entries generalizing voices km with
  | nil => exact h
  | cons e rest ih =>
    obtain ⟨vn, vd⟩ := e
    cases hbq : buildQualities lc locc vn vd.qualities [] km with
    | mk variants km' =>
      simp only [buildVoices, hbq]
      by_cases hemp : variants.isEmpty = true
      · simp only [hemp, if_true]
        exact ih voices km' h
      · simp only [hemp, Bool.false_eq_true, if_false]
        refine ih _ km' ?_
        intro n v hfind
        rcases dictFind_dictInsert_cases hfind with ⟨rfl, rfl⟩ | hold
        · refine ⟨rfl, ?_, ?_⟩
          · intro hnil
            have hnil2 : variants = [] := hnil
            rw [hnil2] at hemp
            exact hemp rfl
          · intro q var hqv
            have hall := buildQualities_varsOK lc locc vn vd.qualities [] km
              (fun q var hx => by simp [dictFind] at hx)
            rw [hbq] at hall
            exact hall q var hqv
        · exact h n v hold

/-- Voices already stored are untouched by the rest of the voice loop when
the remaining names are fresh and duplicate-free. -/
theorem buildVoices_mono (lc locc : String)
    (entries : List (String × VoiceData))
    (voices : List (String × Voice)) (km : KeyMap)
    (hnodup : (entries.map (·.1)).Nodup)
    (hfresh : ∀ p ∈ entries, dictFind p.1 voices = none) :
    ∀ n v, dictFind n voices = some v →
      dictFind n (buildVoices lc locc entries voices km).1 = some v := by
  induction entries generalizing voices km with
  | nil => exact fun n v h => h
  | cons e rest ih =>
    obtain ⟨vn, vd⟩ := e
    rw [List.map_cons] at hnodup
    obtain ⟨hvn_notin, hnodup'⟩ := List.nodup_cons.mp hnodup
    cases hbq : buildQualities lc locc vn vd.qualities [] km with
    | mk variants km' =>
      simp only [buildVoices, hbq]
      by_cases hemp : variants.isEmpty = true
      · simp only [hemp, if_true]
        exact ih voices km' hnodup'
          (fun p hp => hfresh p (List.mem_cons_of_mem _ hp))
      · simp only [hemp, Bool.false_eq_true, if_false]
        intro n v hnv
        have hne : vn ≠ n := by
          intro heq
          subst heq
          exact Option.noConfusion
            ((hfresh (vn, vd) (List.mem_cons_self _ _)).symm.trans hnv)
        refine ih _ km' hnodup' ?_ n v ?_
        · intro p hp
          rw [dictFind_dictInsert,
            if_neg (notin_map_ne hvn_notin hp)]
          exact hfresh p (List.mem_cons_of_mem _ hp)
        · rw [dictFind_dictInsert, if_neg hne]
          exact hnv

/-- Every record reachable in the reverse index after the voice loop is
either an old record or points at a consistent voice of this locale. -/
theorem buildVoices_km (lc locc : String)
    (entries : List (String × VoiceData))
    (voices : List (String × Voice)) (km : KeyMap)
    (hnodup : (entries.map (·.1)).Nodup)
    (hfresh : ∀ p ∈ entries, dictFind p.1 voices = none)
    (hnames : ∀ p ∈ entries, p.1 ≠ "") :
    ∀ key rec,
      dictFind key (buildVoices lc locc entries voices km).2 = some rec →
      dictFind key km = some rec ∨
      (rec.1 = lc ∧ rec.2.1 = locc ∧ rec.2.2.1 ≠ "" ∧
       ∃ v var,
         dictFind rec.2.2.1 (buildVoices lc locc entries voices km).1 = some v ∧
         v.name = rec.2.2.1 ∧
         dictFind rec.2.2.2 v.variants = some var ∧
         var.quality = rec.2.2.2) := by
  induction entries generalizing voices km with
  | nil => exact fun key rec h => Or.inl h
  | cons e rest ih =>
    obtain ⟨vn, vd⟩ := e
    rw [List.map_cons] at hnodup
    obtain ⟨hvn_notin, hnodup'⟩ := List.nodup_cons.mp hnodup
    cases hbq : buildQualities lc locc vn vd.qualities [] km with
    | mk variants km' =>
      have hqkm := buildQualities_km lc locc vn vd.qualities [] km
      rw [hbq] at hqkm
      simp only [buildVoices, hbq]
      by_cases hemp : variants.isEmpty = true
      · simp only [hemp, if_true]
        intro key rec h
        rcases ih voices km' hnodup'
          (fun p hp => hfresh p (List.mem_cons_of_mem _ hp))
          (fun p hp => hnames p (List.mem_cons_of_mem _ hp)) key rec h with
          hold | hnew
        · rcases hqkm key rec hold with hkm | ⟨_, _, _, var, hvar, _⟩
          · exact Or.inl hkm
          · rw [List.isEmpty_iff.mp hemp] at hvar
            simp [dictFind] at hvar
        · exact Or.inr hnew
      · simp only [hemp, Bool.false_eq_true, if_false]
        intro key rec h
        rcases ih _ km' hnodup'
          (fun p hp => by
            rw [dictFind_dictInsert,
              if_neg (notin_map_ne hvn_notin hp)]
            exact hfresh p (List.mem_cons_of_mem _ hp))
          (fun p hp => hnames p (List.mem_cons_of_mem _ hp)) key rec h with
          hold | hnew
        · rcases hqkm key rec hold with hkm | ⟨h1, h2, h3, var, hvar, hvarq⟩
          · exact Or.inl hkm
          · refine Or.inr ⟨h1, h2, h3 ▸ hnames (vn, vd) (List.mem_cons_self _ _), ?_⟩
            refine ⟨{ name := vn
                    , display_name := vd.display_name.getD (defaultDisplayName vn)
                    , gender := genderFromData vd.gender
                    , variants := variants
                    , description := vd.description.getD "" }, var, ?_, h3.symm, ?_, hvarq⟩
            · rw [h3]
              refine buildVoices_mono lc locc rest _ km' hnodup' ?_ vn _ ?_
              · intro p hp
                rw [dictFind_dictInsert,
                  if_neg (notin_map_ne hvn_notin hp)]
                exact hfresh p (List.mem_cons_of_mem _ hp)
              · rw [dictFind_dictInsert, if_pos rfl]
            · exact hvar
        · exact Or.inr hnew

/-- Every locale stored by the locale loop is consistent with its code. -/
theorem buildLocales_localesOK (lc : String)
    (entries : List (String × LocaleData)) (fl : Option String)
    (locales : List (String × Locale)) (km : KeyMap)
    (h : ∀ c loc, dictFind c locales = some loc → LocaleConsistent c loc) :
    ∀ c loc,
      dictFind c (buildLocales lc entries fl locales km).2.1 = some loc →
      LocaleConsistent c loc := by
  induction entries generalizing fl locales km with
  | nil => exact h
  | cons e rest ih =>
    obtain ⟨lcc, ld⟩ := e
    cases hbv : buildVoices lc lcc ld.voices [] km with
    | mk voices km' =>
      simp only [buildLocales, hbv]
      by_cases hemp : voices.isEmpty = true
      · simp only [hemp, if_true]
        exact ih _ locales km' h
      · simp only [hemp, Bool.false_eq_true, if_false]
        refine ih _ _ km' ?_
        intro c loc hfind
        rcases dictFind_dictInsert_cases hfind with ⟨rfl, rfl⟩ | hold
        · refine ⟨rfl, ?_, ?_⟩
          · intro hnil
            have hnil2 : voices = [] := hnil
            rw [hnil2] at hemp
            exact hemp rfl
          · intro n v hnv
            have hall := buildVoices_voicesOK lc lcc ld.voices [] km
              (fun n v hx => by simp [dictFind] at hx)
            rw [hbv] at hall
            exact hall n v hnv
        · exact h c loc hold

/-- Locales already stored are untouched by the rest of the locale loop when
the remaining codes are fresh and duplicate-free. -/
theorem buildLocales_mono (lc : String)
    (entries : List (String × LocaleData)) (fl : Option String)
    (locales : List (String × Locale)) (km : KeyMap)
    (hnodup : (entries.map (·.1)).Nodup)
    (hfresh : ∀ p ∈ entries, dictFind p.1 locales = none) :
    ∀ c loc, dictFind c locales = some loc →
      dictFind c (buildLocales lc entries fl locales km).2.1 = some loc := by
  induction entries generalizing fl locales km with
  | nil => exact fun c loc h => h
  | cons e rest ih =>
    obtain ⟨lcc, ld⟩ := e
    rw [List.map_cons] at hnodup
    obtain ⟨hlcc_notin, hnodup'⟩ := List.nodup_cons.mp hnodup
    cases hbv : buildVoices lc lcc ld.voices [] km with
    | mk voices km' =>
      simp only [buildLocales, hbv]
      by_cases hemp : voices.isEmpty = true
      · simp only [hemp, if_true]
        exact ih _ locales km' hnodup'
          (fun p hp => hfresh p (List.mem_cons_of_mem _ hp))
      · simp only [hemp, Bool.false_eq_true, if_false]
        intro c loc hcl
        have hne : lcc ≠ c := by
          intro heq
          subst heq
          exact Option.noConfusion
            ((hfresh (lcc, ld) (List.mem_cons_self _ _)).symm.trans hcl)
        refine ih _ _ km' hnodup' ?_ c loc ?_
        · intro p hp
          rw [dictFind_dictInsert, if_neg (notin_map_ne hlcc_notin hp)]
          exact hfresh p (List.mem_cons_of_mem _ hp)
        · rw [dictFind_dictInsert, if_neg hne]
          exact hcl

/-- The first-locale accumulator of the locale loop: the incoming value when
already set, else the first entry's code. -/
theorem buildLocales_first (lc : String)
    (entries : List (String × LocaleData)) (fl : Option String)
    (locales : List (String × Locale)) (km : KeyMap) :
    (buildLocales lc entries fl locales km).1 =
      (match fl with
       | some x => some x
       | none => (entries.head?).map (·.1)) := by
  induction entries generalizing fl locales km with
  | nil =>
    cases fl <;> rfl
  | cons e rest ih =>
    obtain ⟨lcc, ld⟩ := e
    cases hbv : buildVoices lc lcc ld.voices [] km with
    | mk voices km' =>
      simp only [buildLocales, hbv]
      cases fl with
      | none => rw [ih]; rfl
      | some x => rw [ih]; rfl

/-- Every record reachable in the reverse index after the locale loop is
either an old record or resolves through a consistent locale of this
language. -/
theorem buildLocales_km (lc : String)
    (entries : List (String × LocaleData)) (fl : Option String)
    (locales : List (String × Locale)) (km : KeyMap)
    (hnodup : (entries.map (·.1)).Nodup)
    (hfresh : ∀ p ∈ entries, dictFind p.1 locales = none)
    (hcodes : ∀ p ∈ entries, p.1 ≠ "")
    (hvoices : ∀ p ∈ entries,
      (p.2.voices.map (·.1)).Nodup ∧ ∀ r ∈ p.2.voices, r.1 ≠ "") :
    ∀ key rec,
      dictFind key (buildLocales lc entries fl locales km).2.2 = some rec →
      dictFind key km = some rec ∨
      (rec.1 = lc ∧ rec.2.1 ≠ "" ∧ rec.2.2.1 ≠ "" ∧
       ∃ loc v var,
         dictFind rec.2.1 (buildLocales lc entries fl locales km).2.1 = some loc ∧
         loc.code = rec.2.1 ∧
         dictFind rec.2.2.1 loc.voices = some v ∧ v.name = rec.2.2.1 ∧
         dictFind rec.2.2.2 v.variants = some var ∧
         var.quality = rec.2.2.2) := by
  induction entries generalizing fl locales km with
  | nil => exact fun key rec h => Or.inl h
  | cons e rest ih =>
    obtain ⟨lcc, ld⟩ := e
    rw [List.map_cons] at hnodup
    obtain ⟨hlcc_notin, hnodup'⟩ := List.nodup_cons.mp hnodup
    cases hbv : buildVoices lc lcc ld.voices [] km with
    | mk voices km' =>
      have hvkm := buildVoices_km lc lcc ld.voices [] km
        (hvoices (lcc, ld) (List.mem_cons_self _ _)).1
        (fun p _ => by simp [dictFind])
        (hvoices (lcc, ld) (List.mem_cons_self _ _)).2
      rw [hbv] at hvkm
      simp only [buildLocales, hbv]
      by_cases hemp : voices.isEmpty = true
      · simp only [hemp, if_true]
        intro key rec h
        rcases ih _ locales km' hnodup'
          (fun p hp => hfresh p (List.mem_cons_of_mem _ hp))
          (fun p hp => hcodes p (List.mem_cons_of_mem _ hp))
          (fun p hp => hvoices p (List.mem_cons_of_mem _ hp)) key rec h with
          hold | hnew
        · rcases hvkm key rec hold with hkm | ⟨_, _, _, v, var, hv, _⟩
          · exact Or.inl hkm
          · rw [List.isEmpty_iff.mp hemp] at hv
            simp [dictFind] at hv
        · exact Or.inr hnew
      · simp only [hemp, Bool.false_eq_true, if_false]
        intro key rec h
        rcases ih _ _ km' hnodup'
          (fun p hp => by
            rw [dictFind_dictInsert, if_neg (notin_map_ne hlcc_notin hp)]
            exact hfresh p (List.mem_cons_of_mem _ hp))
          (fun p hp => hcodes p (List.mem_cons_of_mem _ hp))
          (fun p hp => hvoices p (List.mem_cons_of_mem _ hp)) key rec h with
          hold | hnew
        · rcases hvkm key rec hold with hkm | ⟨h1, h2, h3, v, var, hv, hvn, hvar, hvarq⟩
          · exact Or.inl hkm
          · refine Or.inr ⟨h1, h2 ▸ hcodes (lcc, ld) (List.mem_cons_self _ _), h3, ?_⟩
            refine ⟨{ code := lcc, name := localeDisplayName lcc, voices := voices },
                    v, var, ?_, h2.symm, hv, hvn, hvar, hvarq⟩
            rw [h2]
            refine buildLocales_mono lc rest _ _ km' hnodup' ?_ lcc _ ?_
            · intro p hp
              rw [dictFind_dictInsert, if_neg (notin_map_ne hlcc_notin hp)]
              exact hfresh p (List.mem_cons_of_mem _ hp)
            · rw [dictFind_dictInsert, if_pos rfl]
        · exact Or.inr hnew

/-- Every language stored by the language loop is either an old entry or the
consistent image of its (unique) index entry, with its default locale set to
that entry's first locale code. -/
theorem buildLanguages_langsOK
    (entries : List (String × LangData))
    (langs : List (String × Language)) (km : KeyMap)
    (hnodup : (entries.map (·.1)).Nodup)
    (hfresh : ∀ p ∈ entries, dictFind p.1 langs = none) :
    ∀ c L, dictFind c (buildLanguages entries langs km).1 = some L →
      dictFind c langs = some L ∨
      (∃ ld, dictFind c entries = some ld ∧ LanguageConsistent c L ∧
        L.default_locale = (ld.locales.head?).map (·.1)) := by
  induction entries generalizing langs km with
  | nil => exact fun c L h => Or.inl h
  | cons e rest ih =>
    obtain ⟨lc, ld⟩ := e
    rw [List.map_cons] at hnodup
    obtain ⟨hlc_notin, hnodup'⟩ := List.nodup_cons.mp hnodup
    rcases hbl : buildLocales lc ld.locales none [] km with ⟨fl, locales, km'⟩
    simp only [buildLanguages, hbl]
    by_cases hemp : locales.isEmpty = true
    · simp only [hemp, if_true]
      intro c L h
      rcases ih langs km' hnodup'
        (fun p hp => hfresh p (List.mem_cons_of_mem _ hp)) c L h with
        hold | ⟨ld', hld', hcons, hdef⟩
      · exact Or.inl hold
      · refine Or.inr ⟨ld', ?_, hcons, hdef⟩
        have hc_mem := dictFind_some_mem_keys hld'
        have hlc_ne : ¬(lc = c) := by
          intro heq
          rw [heq] at hlc_notin
          exact hlc_notin hc_mem
        simp only [dictFind]
        rw [if_neg hlc_ne]
        exact hld'
    · simp only [hemp, Bool.false_eq_true, if_false]
      intro c L h
      rcases ih _ km' hnodup'
        (fun p hp => by
          rw [dictFind_dictInsert, if_neg (notin_map_ne hlc_notin hp)]
          exact hfresh p (List.mem_cons_of_mem _ hp)) c L h with
        hold | ⟨ld', hld', hcons, hdef⟩
      · rcases dictFind_dictInsert_cases hold with ⟨rfl, rfl⟩ | hold2
        · refine Or.inr ⟨ld, by simp [dictFind], ?_, ?_⟩
          · refine ⟨rfl, ?_, ?_⟩
            · intro hnil
              have hnil2 : locales = [] := hnil
              rw [hnil2] at hemp
              exact hemp rfl
            · intro cc loc hcc
              have hall := buildLocales_localesOK lc ld.locales none [] km
                (fun c loc hx => by simp [dictFind] at hx)
              rw [hbl] at hall
              exact hall cc loc hcc
          · have hfst := buildLocales_first lc ld.locales none [] km
            rw [hbl] at hfst
            exact hfst
        · exact Or.inl hold2
      · refine Or.inr ⟨ld', ?_, hcons, hdef⟩
        have hc_mem := dictFind_some_mem_keys hld'
        have hlc_ne : ¬(lc = c) := by
          intro heq
          rw [heq] at hlc_notin
          exact hlc_notin hc_mem
        simp only [dictFind]
        rw [if_neg hlc_ne]
        exact hld'

/-- Every record in the reverse index after the language loop resolves
against the produced language table. -/
theorem buildLanguages_km
    (entries : List (String × LangData))
    (langs : List (String × Language)) (km : KeyMap)
    (hnodup : (entries.map (·.1)).Nodup)
    (hfresh : ∀ p ∈ entries, dictFind p.1 langs = none)
    (hinner : ∀ p ∈ entries, (p.2.locales.map (·.1)).Nodup ∧
       ∀ q ∈ p.2.locales, q.1 ≠ "" ∧ (q.2.voices.map (·.1)).Nodup ∧
         ∀ r ∈ q.2.voices, r.1 ≠ "")
    (hkm : ∀ key rec, dictFind key km = some rec → RecResolvable langs rec) :
    ∀ key rec, dictFind key (buildLanguages entries langs km).2 = some rec →
      RecResolvable (buildLanguages entries langs km).1 rec := by
  induction entries generalizing langs km with
  | nil => exact hkm
  | cons e rest ih =>
    obtain ⟨lc, ld⟩ := e
    rw [List.map_cons] at hnodup
    obtain ⟨hlc_notin, hnodup'⟩ := List.nodup_cons.mp hnodup
    have hin := hinner (lc, ld) (List.mem_cons_self _ _)
    rcases hbl : buildLocales lc ld.locales none [] km with ⟨fl, locales, km'⟩
    have hlkm := buildLocales_km lc ld.locales none [] km hin.1
      (fun p _ => by simp [dictFind])
      (fun q hq => (hin.2 q hq).1)
      (fun q hq => ⟨(hin.2 q hq).2.1, (hin.2 q hq).2.2⟩)
    rw [hbl] at hlkm
    simp only [buildLanguages, hbl]
    by_cases hemp : locales.isEmpty = true
    · simp only [hemp, if_true]
      refine ih langs km' hnodup'
        (fun p hp => hfresh p (List.mem_cons_of_mem _ hp))
        (fun p hp => hinner p (List.mem_cons_of_mem _ hp)) ?_
      intro key rec h
      rcases hlkm key rec h with hkm2 | ⟨_, _, _, loc, v, var, hloc, _⟩
      · exact hkm key rec hkm2
      · rw [List.isEmpty_iff.mp hemp] at hloc
        simp [dictFind] at hloc
    · simp only [hemp, Bool.false_eq_true, if_false]
      refine ih _ km' hnodup'
        (fun p hp => by
          rw [dictFind_dictInsert, if_neg (notin_map_ne hlc_notin hp)]
          exact hfresh p (List.mem_cons_of_mem _ hp))
        (fun p hp => hinner p (List.mem_cons_of_mem _ hp)) ?_
      intro key rec h
      rcases hlkm key rec h with hkm2 |
        ⟨h1, h2, h3, loc, v, var, hloc, hlocc, hv, hvn, hvar, hvarq⟩
      · obtain ⟨hb, hvne, L, loc, v, var, hL, hLc, hloc, hlocc, hvv, hvn2, hvar, hvarq⟩ :=
          hkm key rec hkm2
        refine ⟨hb, hvne, L, loc, v, var, ?_, hLc, hloc, hlocc, hvv, hvn2, hvar, hvarq⟩
        have hne : ¬(lc = rec.1) := by
          intro heq
          have hnone := hfresh (lc, ld) (List.mem_cons_self _ _)
          rw [heq] at hnone
          rw [hnone] at hL
          exact Option.noConfusion hL
        rw [dictFind_dictInsert, if_neg hne]
        exact hL
      · refine ⟨h2, h3,
          { code := lc, name := languageDisplayName lc
          , native_name := languageNativeName lc
          , locales := locales, default_locale := fl },
          loc, v, var, ?_, h1.symm, hloc, hlocc, hv, hvn, hvar, hvarq⟩
        rw [h1, dictFind_dictInsert, if_pos rfl]

/-- A record that resolves against the catalog's language table makes
`find_by_voice_key` return the matching tuple. -/
theorem find_by_voice_key_resolves (c : VoiceCatalog) (key : String) (rec : KeyRec)
    (hfind : dictFind key c.voice_key_map = some rec)
    (hrec : RecResolvable c.languages rec) :
    ∃ L loc v var,
      c.find_by_voice_key key = some (L, loc, v, var) ∧
      L.code = rec.1 ∧ loc.code = rec.2.1 ∧ v.name = rec.2.2.1 ∧
      var.quality = rec.2.2.2 := by
  obtain ⟨a, b, vn, q⟩ := rec
  obtain ⟨hb, hvne, L, loc, v, var, hL, hLc, hloc, hlocc, hvv, hvn2, hvar, hvarq⟩ := hrec
  refine ⟨L, loc, v, var, ?_, hLc, hlocc, hvn2, hvarq⟩
  unfold VoiceCatalog.find_by_voice_key
  rw [hfind]
  show c.resolve_voice a (some b) none (some vn) (some q.value) = some (L, loc, v, var)
  unfold VoiceCatalog.resolve_voice
  simp only [VoiceCatalog.get_language, hL, Language.get_locale, hloc,
    Locale.get_voice, hvv, Voice.get_variant, hvar, parseQualityLower_value,
    if_pos hb, if_pos hvne, if_pos (quality_value_ne_empty q)]

/- ============================================================
   Claim C5 — Settings.is_allowed_ip
   ============================================================ -/

/-- C5: `is_allowed_ip` returns true for every address when no backend
address is configured; returns true for the loopback literals "127.0.0.1",
"::1" and "localhost" regardless of the configured backend address; and
otherwise, for a non-empty configured backend address, returns true exactly
when the given address equals the configured backend address. -/
theorem claim5_is_allowed_ip (backend_ip client_ip : String) :
    (backend_ip = "" → is_allowed_ip backend_ip client_ip = true) ∧
    ((client_ip = "127.0.0.1" ∨ client_ip = "::1" ∨ client_ip = "localhost") →
      is_allowed_ip backend_ip client_ip = true) ∧
    (backend_ip ≠ "" → client_ip ≠ "127.0.0.1" → client_ip ≠ "::1" →
      client_ip ≠ "localhost" →
      (is_allowed_ip backend_ip client_ip = true ↔ client_ip = backend_ip)) := by
  refine ⟨fun h => by simp [is_allowed_ip, h], fun h => ?_, fun h1 h2 h3 h4 => ?_⟩
  · by_cases hb : backend_ip = "" <;> simp [is_allowed_ip, hb, h]
  · simp [is_allowed_ip, h1, h2, h3, h4]

/-- Witness for C5 at concrete addresses. -/
theorem claim5_witness :
    is_allowed_ip "" "203.0.113.9" = true ∧
    is_allowed_ip "10.1.1.1" "127.0.0.1" = true ∧
    is_allowed_ip "10.1.1.1" "203.0.113.9" = false := by
  refine ⟨(claim5_is_allowed_ip "" "203.0.113.9").1 rfl,
          (claim5_is_allowed_ip "10.1.1.1" "127.0.0.1").2.1 (Or.inl rfl), ?_⟩
  have h := (claim5_is_allowed_ip "10.1.1.1" "203.0.113.9").2.2
    (by decide) (by decide) (by decide) (by decide)
  cases hb : is_allowed_ip "10.1.1.1" "203.0.113.9"
  · rfl
  · exact absurd (h.mp hb) (by decide)

/- ============================================================
   Claim C7 — the ffmpeg transcoding profile
   ============================================================ -/

/-- C7: the WAV-to-MP3 transcoding step invokes the transcoder with exactly
the compatibility profile: overwrite output, the WAV input, an audio filter
appending 0.5 seconds of trailing silence, output sample rate 24000 Hz,
1 audio channel, the MP3 encoder, bitrate 48k, Xing/Info header disabled,
ID3v2 tags disabled, all metadata stripped, the bit-exact output flag, and
the output MP3 path. -/
theorem claim7_ffmpeg_profile (wav_file_path mp3_file_path : String) :
    convert_to_mp3_cmd wav_file_path mp3_file_path =
      ffmpeg_compatibility_profile wav_file_path mp3_file_path := rfl

/- ============================================================
   Claim C9 — metrics.get_status_class
   ============================================================ -/

/-- C9: the status-class derivation returns "2xx" exactly when
200 ≤ code < 300, "3xx" exactly when 300 ≤ code < 400, "4xx" exactly when
400 ≤ code < 500, and "5xx" for every other integer code, including codes
below 200. -/
theorem claim9_status_class (status_code : Int) :
    (get_status_class status_code = "2xx" ↔ 200 ≤ status_code ∧ status_code < 300) ∧
    (get_status_class status_code = "3xx" ↔ 300 ≤ status_code ∧ status_code < 400) ∧
    (get_status_class status_code = "4xx" ↔ 400 ≤ status_code ∧ status_code < 500) ∧
    (get_status_class status_code = "5xx" ↔
      (status_code < 200 ∨ 500 ≤ status_code)) := by
  unfold get_status_class
  split_ifs with h1 h2 h3 <;>
    refine ⟨⟨fun hs => ?_, fun hr => ?_⟩, ⟨fun hs => ?_, fun hr => ?_⟩,
            ⟨fun hs => ?_, fun hr => ?_⟩, ⟨fun hs => ?_, fun hr => ?_⟩⟩ <;>
    first
      | rfl
      | omega
      | exact absurd hs (by decide)

/-- Witness for C9 at concrete status codes. -/
theorem claim9_witness :
    get_status_class 204 = "2xx" ∧ get_status_class 307 = "3xx" ∧
    get_status_class 403 = "4xx" ∧ get_status_class 500 = "5xx" ∧
    get_status_class 199 = "5xx" :=
  ⟨(claim9_status_class 204).1.mpr (by decide),
   (claim9_status_class 307).2.1.mpr (by decide),
   (claim9_status_class 403).2.2.1.mpr (by decide),
   (claim9_status_class 500).2.2.2.mpr (Or.inr (by decide)),
   (claim9_status_class 199).2.2.2.mpr (Or.inl (by decide))⟩

/- ============================================================
   Claim C1 — speed handling in generate_speech / _run_piper
   ============================================================ -/

/-- C1 counterexample: calling `generate_speech` with speed 3.0 synthesizes
with speed 3.0 (length-scale 1/3), not with the claimed clamped value 2.0
(length-scale 1/2); at the API layer a speed of 3.0 is rejected with the
`invalid_speed` body, not clamped. -/
theorem claim1_counterexample :
    generate_speech demoService "Hello world" "en" 3 =
      .ok { text := "Hello world"
          , model_path := "/app/models/en/en_US-lessac-high.onnx"
          , config_path := "/app/models/en/en_US-lessac-high.onnx.json"
          , length_scale := some (1 / 3) } ∧
    (1 / 3 : ℚ) ≠ 1 / 2 ∧
    generate_endpoint { text := "Hello world", language := "en", speed := 3 } =
      .validation_rejected (.invalid_speed 3 (1 / 2) 2) := by
  refine ⟨?_, by norm_num, ?_⟩
  · have h : generate_speech demoService "Hello world" "en" 3 =
        .ok (run_piper "Hello world" "/app/models/en/en_US-lessac-high.onnx"
          "/app/models/en/en_US-lessac-high.onnx.json" 3) := by
      simp +decide [generate_speech, demoService, dictFind]
    rw [h]
    norm_num [run_piper]
  · have ht : validate_text "Hello world" = none := by decide
    have hs : validate_speed (3 : ℚ) = some .speed_range := by
      unfold validate_speed
      norm_num
    simp +decide [generate_endpoint, field_errors, ht, hs,
      validate_language, validation_exception_handler]

/-- C1 amended: `generate_speech` does not clamp the speed factor; it hands
the given speed unchanged to `_run_piper`, which uses length-scale
`1.0 / speed` exactly when `speed != 1.0`.  Speeds outside
`[min_speed = 0.5, max_speed = 2.0]` are instead rejected by the API-layer
request validation with the `invalid_speed` error stating those bounds. -/
theorem claim1_speed_passthrough :
    (∀ (svc : ServiceState) (text language : String) (speed : ℚ)
       (inv : PiperInvocation),
      generate_speech svc text language speed = .ok inv →
        inv.length_scale = if speed ≠ 1 then some (1 / speed) else none) ∧
    (∀ r : TTSRawRequest, languagePatternOK r.language = true →
      validate_text r.text = none → (r.speed < 1/2 ∨ 2 < r.speed) →
      generate_endpoint r = .validation_rejected (.invalid_speed r.speed (1/2) 2)) := by
  constructor
  · intro svc text language speed inv h
    unfold generate_speech at h
    by_cases h1 : (dictFind language svc.loaded_models).isNone
    · simp [h1] at h
    · by_cases h2 : pyStrip text = ""
      · simp [h1, h2] at h
      · cases h3 : dictFind language svc.model_configs with
        | none => simp [h1, h2, h3] at h
        | some mc =>
          simp only [h1, h2, h3, if_neg, Bool.false_eq_true, if_false] at h
          obtain rfl : run_piper text mc.model_path mc.config_path speed = inv := by
            simpa using h
          rfl
  · intro r hl ht hs
    have hsp : validate_speed r.speed = some .speed_range := by
      unfold validate_speed
      rw [if_pos hs]
    simp [generate_endpoint, field_errors, ht, hsp, validate_language, hl,
      validation_exception_handler]

/-- Witness for C1 amended, applied at speed 4 (length-scale 1/4) and at a
concrete out-of-range request. -/
theorem claim1_witness :
    (({ text := "Hi"
      , model_path := "/app/models/en/en_US-lessac-high.onnx"
      , config_path := "/app/models/en/en_US-lessac-high.onnx.json"
      , length_scale := some (1 / 4) } : PiperInvocation).length_scale =
        if (4 : ℚ) ≠ 1 then some (1 / (4 : ℚ)) else none) ∧
    generate_endpoint { text := "Hi", language := "en", speed := 4 } =
      .validation_rejected (.invalid_speed 4 (1/2) 2) :=
  ⟨claim1_speed_passthrough.1 demoService "Hi" "en" 4 _
     (by
       have h : generate_speech demoService "Hi" "en" 4 =
           .ok (run_piper "Hi" "/app/models/en/en_US-lessac-high.onnx"
             "/app/models/en/en_US-lessac-high.onnx.json" 4) := by
         simp +decide [generate_speech, demoService, dictFind]
       rw [h]
       norm_num [run_piper]),
   claim1_speed_passthrough.2 { text := "Hi", language := "en", speed := 4 }
     (by decide) (by decide) (by norm_num)⟩

/- ============================================================
   Claim C3 — order of text and language validation
   ============================================================ -/

/-- C3 counterexample: an empty text together with an unknown language makes
`generate_speech` raise the language error, not the Text-invalid error — the
language check runs first. -/
theorem claim3_counterexample :
    generate_speech demoService "" "xx" 1 =
      .error (.languageNotAvailable "xx" ["en"]) ∧
    TTSError.languageNotAvailable "xx" ["en"] ≠ .textEmpty := by
  refine ⟨rfl, by decide⟩

/-- C3 amended: language validation precedes text validation in
`generate_speech`: an unknown language always raises the
language-not-available error, and the Text-empty error is raised for
empty/whitespace-only text only when the language is loaded. -/
theorem claim3_validation_order :
    (∀ (svc : ServiceState) (text language : String) (speed : ℚ),
      dictFind language svc.loaded_models = none →
      generate_speech svc text language speed =
        .error (.languageNotAvailable language (svc.loaded_models.map (·.1)))) ∧
    (∀ (svc : ServiceState) (text language : String) (speed : ℚ),
      (dictFind language svc.loaded_models).isSome → pyStrip text = "" →
      generate_speech svc text language speed = .error .textEmpty) := by
  constructor
  · intro svc text language speed h
    simp [generate_speech, h]
  · intro svc text language speed h ht
    have h1 : (dictFind language svc.loaded_models).isNone = false := by
      simp only [Option.isNone_eq_false_iff]
      exact h
    simp [generate_speech, h1, ht]

/-- Witness for C3 amended at a concrete unknown language and at a concrete
whitespace-only text. -/
theorem claim3_witness :
    generate_speech demoService "hello" "fr" 1 =
      .error (.languageNotAvailable "fr" ["en"]) ∧
    generate_speech demoService "   " "en" 1 = .error .textEmpty :=
  ⟨claim3_validation_order.1 demoService "hello" "fr" 1 (by decide),
   claim3_validation_order.2 demoService "   " "en" 1 (by decide) (by decide)⟩

/- ============================================================
   Claim C6 — the verify_backend_ip middleware
   ============================================================ -/

/-- C6 counterexample: a request to the health-check path from an address
that is neither loopback nor the configured backend address is rejected with
403 — the middleware does not exempt the health-check path for every client
address. -/
theorem claim6_counterexample :
    verify_backend_ip "203.0.113.7" "/piper/health" "198.51.100.9" = .forbidden ∧
    FilterDecision.forbidden ≠ .forward := by
  refine ⟨by decide, by decide⟩

/-- C6 amended: the middleware bypasses filtering for the health-check and
metrics paths only when the client address is a loopback literal
("127.0.0.1" or "::1"); every other request whose client address differs
from the configured backend address is rejected with 403 before reaching the
route handler.  The blocked-request counter helper adds exactly 1 per call,
but this middleware never invokes it. -/
theorem claim6_ip_filter :
    (∀ backend_ip path client_ip,
      (path = "/piper/health" ∨ path = "/piper/metrics") →
      (client_ip = "127.0.0.1" ∨ client_ip = "::1") →
      verify_backend_ip backend_ip path client_ip = .forward) ∧
    (∀ backend_ip path client_ip,
      ¬((path = "/piper/health" ∨ path = "/piper/metrics") ∧
        (client_ip = "127.0.0.1" ∨ client_ip = "::1")) →
      client_ip ≠ backend_ip →
      verify_backend_ip backend_ip path client_ip = .forbidden) ∧
    (∀ n : Nat, track_blocked_request n = n + 1) := by
  refine ⟨fun b p ip h1 h2 => ?_, fun b p ip h1 h2 => ?_, fun n => rfl⟩
  · simp [verify_backend_ip, h1, h2]
  · simp [verify_backend_ip, h1, h2]

/-- Witness for C6 amended at concrete paths and addresses. -/
theorem claim6_witness :
    verify_backend_ip "203.0.113.7" "/piper/health" "127.0.0.1" = .forward ∧
    verify_backend_ip "203.0.113.7" "/piper/tts/generate" "198.51.100.9" = .forbidden ∧
    track_blocked_request 41 = 42 :=
  ⟨claim6_ip_filter.1 "203.0.113.7" "/piper/health" "127.0.0.1"
     (Or.inl rfl) (Or.inl rfl),
   claim6_ip_filter.2.1 "203.0.113.7" "/piper/tts/generate" "198.51.100.9"
     (by decide) (by decide),
   claim6_ip_filter.2.2 41⟩

/- ============================================================
   Claim C2 — text-length validation on the generation endpoint
   ============================================================ -/

/-- C2: a request whose text has exactly `MAX_TEXT_LENGTH` characters (and
is otherwise valid) passes validation and reaches synthesis, while every
request whose text exceeds the maximum is rejected before synthesis with the
text-too-long body reporting both the provided length and the configured
maximum. -/
theorem claim2_text_length_validation :
    (∀ r : TTSRawRequest, r.text.length = MAX_TEXT_LENGTH →
      clean_text r.text ≠ "" → languagePatternOK r.language = true →
      validate_speed r.speed = none →
      generate_endpoint r = .synthesis_attempted (clean_text r.text) r.language r.speed) ∧
    (∀ r : TTSRawRequest, r.text.length > MAX_TEXT_LENGTH →
      languagePatternOK r.language = true →
      generate_endpoint r =
        .validation_rejected (.text_too_long MAX_TEXT_LENGTH r.text.length) ∧
      ∀ t l s, generate_endpoint r ≠ .synthesis_attempted t l s) := by
  constructor
  · intro r hlen hclean hl hs
    have ht : validate_text r.text = none := by
      unfold validate_text
      rw [hlen]
      simp [MAX_TEXT_LENGTH, hclean]
    simp [generate_endpoint, field_errors, ht, hs, validate_language, hl]
  · intro r hlen hl
    have ht : validate_text r.text = some .text_too_long := by
      unfold validate_text
      have h1 : ¬(r.text.length < 1) := by omega
      rw [if_neg h1, if_pos hlen]
    have hmain : generate_endpoint r =
        .validation_rejected (.text_too_long MAX_TEXT_LENGTH r.text.length) := by
      cases hs : validate_speed r.speed with
      | none =>
        simp [generate_endpoint, field_errors, ht, hs, validate_language, hl,
          validation_exception_handler]
      | some e =>
        cases hs2 : e <;>
          simp_all [generate_endpoint, field_errors, ht, validate_language, hl,
            validation_exception_handler, validate_speed]
    exact ⟨hmain, fun t l s h => by rw [hmain] at h; exact EndpointResult.noConfusion h⟩

/-- Witness for C2 at a 5000-character text and a 5001-character text. -/
theorem claim2_witness :
    generate_endpoint { text := maxLenText, language := "en", speed := 1 } =
      .synthesis_attempted (clean_text maxLenText) "en" 1 ∧
    generate_endpoint { text := overLenText, language := "en", speed := 1 } =
      .validation_rejected (.text_too_long MAX_TEXT_LENGTH overLenText.length) := by
  have hmax : maxLenText.length = MAX_TEXT_LENGTH := by
    unfold maxLenText
    rw [mkStr_length, List.length_replicate]
  have hover : overLenText.length = MAX_TEXT_LENGTH + 1 := by
    unfold overLenText
    rw [mkStr_length, List.length_replicate]
  have hclean : clean_text maxLenText ≠ "" := by
    unfold maxLenText
    rw [clean_text_replicate (by decide)]
    rw [if_neg (by decide : ¬(MAX_TEXT_LENGTH = 0))]
    intro hcontra
    have h2 : (List.replicate MAX_TEXT_LENGTH 'a').length = ("".data).length :=
      congrArg List.length (congrArg String.data hcontra)
    rw [List.length_replicate] at h2
    exact absurd h2 (by decide)
  refine ⟨claim2_text_length_validation.1
            { text := maxLenText, language := "en", speed := 1 }
            hmax hclean (by decide) (by unfold validate_speed; norm_num),
          (claim2_text_length_validation.2
            { text := overLenText, language := "en", speed := 1 }
            ?_ (by decide)).1⟩
  show overLenText.length > MAX_TEXT_LENGTH
  rw [hover]
  omega

/- ============================================================
   Claim C8 — log_config.cleanup_old_logs
   ============================================================ -/

theorem cleanup_scan_no_fail (cutoff : Int) (io_fails : String → Bool)
    (files : List LogFile) (h : ∀ f ∈ files, io_fails f.name = false) :
    cleanup_scan cutoff io_fails files =
      ((files.filter fun f => matches_log_glob f.name && decide (f.mtime < cutoff)).length,
       files.filter (fun f => !(matches_log_glob f.name && decide (f.mtime < cutoff))),
       false) := by
  induction files with
  | nil => simp [cleanup_scan]
  | cons f rest ih =>
    have hf : io_fails f.name = false := h f (by simp)
    have hrest := ih (fun g hg => h g (by simp [hg]))
    by_cases hc : (matches_log_glob f.name && decide (f.mtime < cutoff)) = true
    · simp only [cleanup_scan, hc, if_true, hf, Bool.false_eq_true, if_false, hrest,
        List.filter_cons]
      simp [hc]
    · simp only [cleanup_scan, hc, Bool.false_eq_true, if_false, hrest,
        List.filter_cons]
      simp [hc]

theorem cleanup_scan_length (cutoff : Int) (io_fails : String → Bool)
    (files : List LogFile) :
    files.length =
      (cleanup_scan cutoff io_fails files).1 +
      (cleanup_scan cutoff io_fails files).2.1.length := by
  induction files with
  | nil => simp [cleanup_scan]
  | cons f rest ih =>
    cases hscan : cleanup_scan cutoff io_fails rest with
    | mk d tl =>
      obtain ⟨fs, e⟩ := tl
      rw [hscan] at ih
      by_cases hc : (matches_log_glob f.name && decide (f.mtime < cutoff)) = true
      · by_cases hfail : io_fails f.name = true
        · simp [cleanup_scan, hc, hfail]
        · simp only [cleanup_scan, hc, if_true, hfail, Bool.false_eq_true, if_false, hscan]
          simp at ih ⊢
          omega
      · simp only [cleanup_scan, hc, Bool.false_eq_true, if_false, hscan]
        simp at ih ⊢
        omega

/-- C8: when no I/O error occurs, `cleanup_old_logs` deletes exactly the
files matching `*.log*` whose modification time is strictly older than
`retention_days * 86400` seconds before the invocation time, leaves every
other file untouched and returns the exact count deleted; and under any
pattern of I/O failures it still returns normally, with the returned count
equal to the number of files actually removed. -/
theorem claim8_cleanup_old_logs (now : Int) (retention_days : Nat)
    (io_fails : String → Bool) (files : List LogFile) :
    ((∀ f ∈ files, io_fails f.name = false) →
      cleanup_old_logs now retention_days io_fails files =
        ((files.filter fun f =>
            matches_log_glob f.name && decide (f.mtime < now - retention_days * 86400)).length,
         files.filter fun f =>
           !(matches_log_glob f.name && decide (f.mtime < now - retention_days * 86400)))) ∧
    files.length =
      (cleanup_old_logs now retention_days io_fails files).1 +
      (cleanup_old_logs now retention_days io_fails files).2.length := by
  constructor
  · intro h
    unfold cleanup_old_logs
    rw [cleanup_scan_no_fail (now - retention_days * 86400) io_fails files h]
  · unfold cleanup_old_logs
    cases hscan : cleanup_scan (now - retention_days * 86400) io_fails files with
    | mk d tl =>
      obtain ⟨fs, e⟩ := tl
      have := cleanup_scan_length (now - retention_days * 86400) io_fails files
      rw [hscan] at this
      simpa using this

/-- Witness for C8 on a concrete directory listing with no I/O failures:
only the stale `piper.log` is deleted. -/
theorem claim8_witness :
    cleanup_old_logs 2000000 14 (fun _ => false) demoLogDir =
      (1, [{ name := "piper.log.1", mtime := 1999999 },
           { name := "notes.txt", mtime := 5 },
           { name := ".log", mtime := 5 }]) ∧
    demoLogDir.length =
      (cleanup_old_logs 2000000 14 (fun _ => false) demoLogDir).1 +
      (cleanup_old_logs 2000000 14 (fun _ => false) demoLogDir).2.length :=
  ⟨((claim8_cleanup_old_logs 2000000 14 (fun _ => false) demoLogDir).1
      (fun f _ => rfl)).trans (by decide),
   (claim8_cleanup_old_logs 2000000 14 (fun _ => false) demoLogDir).2⟩

/- ============================================================
   Claim C4 — invariants of VoiceCatalog.load_from_index
   ============================================================ -/

/-- C4: after any catalog load from a well-formed index, no retained voice
has zero quality variants, no retained locale has zero voices, no retained
language has zero locales, and every retained language's default locale is
the first locale code of its index entry in file iteration order; moreover
the quality loop behaves on any entry list exactly as on the list with the
invalid quality strings dropped (an unknown quality is skipped non-fatally,
the voice keeping its other valid qualities). -/
theorem claim4_catalog_invariants :
    (∀ d : IndexData, IndexWF d → CatalogInvariants d) ∧
    (∀ (lang_code locale_code voice_name : String)
       (entries : List (String × VariantData))
       (variants : List (Quality × VoiceVariant)) (km : KeyMap),
      buildQualities lang_code locale_code voice_name entries variants km =
        buildQualities lang_code locale_code voice_name
          (entries.filter (fun e => (parseQuality e.1).isSome)) variants km) := by
  constructor
  · intro d hwf lc L hL
    rw [load_from_index_eq] at hL
    rcases buildLanguages_langsOK d.languages [] [] hwf.1
        (fun p _ => by simp [dictFind]) lc L hL with hold | ⟨ld, hld, hcons, hdef⟩
    · simp [dictFind] at hold
    · constructor
      · refine ⟨hcons.2.1, ?_⟩
        intro c loc hloc
        have hlc := hcons.2.2 c loc hloc
        exact ⟨hlc.2.1, fun n v hv => (hlc.2.2 n v hv).2.1⟩
      · intro ld' hld'
        rw [hld] at hld'
        obtain rfl : ld = ld' := Option.some_injective _ hld'
        exact hdef
  · intro lang_code locale_code voice_name entries variants km
    induction entries generalizing variants km with
    | nil => rfl
    | cons e rest ih =>
      obtain ⟨qs, vd⟩ := e
      cases hq : parseQuality qs with
      | none =>
        rw [List.filter_cons]
        simp only [hq, Option.isSome_none, Bool.false_eq_true, if_false]
        simp only [buildQualities, hq]
        exact ih variants km
      | some q =>
        rw [List.filter_cons]
        simp only [hq, Option.isSome_some, if_true]
        simp only [buildQualities, hq]
        exact ih _ _

/-- Witness for C4 on a concrete index with one invalid quality string. -/
theorem claim4_witness :
    IndexWF demoIndex ∧ CatalogInvariants demoIndex ∧
    buildQualities "en" "US" "lessac"
        [("high", { model := some "en_US-lessac-high.onnx"
                  , config := some "en_US-lessac-high.onnx.json" }),
         ("ultra", { model := some "bogus.onnx" }),
         ("medium", { model := some "en_US-lessac-medium.onnx" })] [] [] =
      buildQualities "en" "US" "lessac"
        ([("high", { model := some "en_US-lessac-high.onnx"
                   , config := some "en_US-lessac-high.onnx.json" }),
          ("ultra", { model := some "bogus.onnx" }),
          ("medium", { model := some "en_US-lessac-medium.onnx" })].filter
            (fun e => (parseQuality e.1).isSome)) [] [] :=
  ⟨by decide, claim4_catalog_invariants.1 demoIndex (by decide),
   claim4_catalog_invariants.2 "en" "US" "lessac" _ [] []⟩

/- ============================================================
   Claim C10 — soundness of the reverse voice-key index
   ============================================================ -/

/-- C10 counterexample: loading an index whose second locale code is the
empty string registers the key `en_-a-high`, but `find_by_voice_key` falls
back (the empty locale code is falsy) to the default locale `US`, where no
voice `a` exists — the reverse index contains a dangling entry. -/
theorem claim10_counterexample :
    dictFind "en_-a-high" (load_from_index badIndex).voice_key_map =
      some ("en", "", "a", Quality.high) ∧
    (load_from_index badIndex).find_by_voice_key "en_-a-high" = none := by
  refine ⟨rfl, rfl⟩

/-- C10 amended: for a well-formed index all of whose locale codes and voice
names are non-empty, the reverse index never contains a dangling entry:
every stored key resolves through `find_by_voice_key` to a tuple whose
language, locale and voice codes and whose variant quality equal the
recorded coordinates. -/
theorem claim10_reverse_index_sound (d : IndexData)
    (hwf : IndexWF d) (hne : IndexCodesNonempty d) : ReverseIndexSound d := by
  intro key rec hfind
  rw [load_from_index_eq] at hfind
  have hres := buildLanguages_km d.languages [] [] hwf.1
    (fun p _ => by simp [dictFind])
    (fun p hp => ⟨(hwf.2 p hp).1,
      fun q hq => ⟨(hne p hp q hq).1, (hwf.2 p hp).2 q hq, (hne p hp q hq).2⟩⟩)
    (fun key rec h => by simp [dictFind] at h)
    key rec hfind
  have hfind2 : dictFind key (load_from_index d).voice_key_map = some rec := by
    rw [load_from_index_eq]
    exact hfind
  have hres2 : RecResolvable (load_from_index d).languages rec := by
    rw [load_from_index_eq]
    exact hres
  exact find_by_voice_key_resolves (load_from_index d) key rec hfind2 hres2

/-- Witness for C10 amended on the concrete demo index. -/
theorem claim10_witness :
    IndexWF demoIndex ∧ IndexCodesNonempty demoIndex ∧ ReverseIndexSound demoIndex :=
  ⟨by decide, by decide,
   claim10_reverse_index_sound demoIndex (by decide) (by decide)⟩

end Piper
